import Mathlib

/-!
Breathing-LED controller (`src/main.cpp`): embedding and verified properties.

The firmware targets an 8-bit AVR board: `int` is 16 bits wide, `unsigned long`
is 32 bits wide and `float` is IEEE binary32.

* Millisecond timestamps (`unsigned long`) are natural numbers below `2 ^ 32`;
  every subtraction on them is taken modulo `2 ^ 32`.
* `systemMode` and the other `int` values are integers.  Arithmetic on them is
  done on `ℤ`; the only arithmetic on `systemMode` is the `++` of the handler,
  applied to a value that is below `MAX_MODES` whenever the program was started
  through `setup`.
* `BreathingLED::period` is a `float` that is only ever assigned `3000.0` or a
  result of `map`, an integer far below `2 ^ 24`, which binary32 holds exactly;
  the field is therefore stored as that integer.
* The floating-point computation of `BreathingLED::update` is written over an
  arbitrary arithmetic `FloatOps F`, so the statements about it hold for every
  rounding behaviour.  No statement depends on a particular arithmetic:
  `exactOps` and `sampleOps` only provide a concrete instance for examples and
  are not the binary32 arithmetic of the target.
* The interrupt handler runs atomically.  `Event` and `run` interleave it with
  whole iterations of `loop`; `Micro` and `microRun` let it run between the
  statements of the flush as well.
-/

namespace Cursova

/-! ## Constants of `main.cpp` -/

/-- Source constant `MAX_MODES` (line 29). -/
def MAX_MODES : Int := 3

/-- Source constant `EEPROM_ADDR_MODE` (line 30). -/
def EEPROM_ADDR_MODE : Nat := 0

/-- Source constant `DEBOUNCE_DELAY` (line 35), in milliseconds. -/
def DEBOUNCE_DELAY : Nat := 200

/-- Source constant `HEARTBEAT_INTERVAL` (line 42), in milliseconds. -/
def HEARTBEAT_INTERVAL : Nat := 1000

/-- Source constant `LCD_INTERVAL` (line 122), in milliseconds. -/
def LCD_INTERVAL : Nat := 300

/-- Number of values of an `unsigned long` on the target. -/
def U32 : Nat := 4294967296

/-- Subtraction `a - b` of two `unsigned long` values, modulo `2 ^ 32`. -/
def subU32 (a b : Nat) : Nat := (a % U32 + (U32 - b % U32)) % U32

/-! ## Peripherals -/

/-- Modelled from the spec: the non-volatile byte store is a peripheral, not
part of `main.cpp`; one reserved byte slot (at `EEPROM_ADDR_MODE`) holds the
persisted mode.  `writes` counts the physical writes the cell has received. -/
structure Eeprom where
  cell : Nat
  writes : Nat
  deriving DecidableEq, Repr

/-- Library call `EEPROM.read(EEPROM_ADDR_MODE)`: the stored byte. -/
def Eeprom.read (e : Eeprom) : Nat := e.cell % 256

/-- Library call `EEPROM.write`: one physical write of the byte `v`. -/
def Eeprom.write (v : Nat) (e : Eeprom) : Eeprom :=
  { cell := v % 256, writes := e.writes + 1 }

/-- Modelled from the spec: the library call `EEPROM.update` is not part of
`main.cpp`; it is the write-if-different policy of the spec (the physical write
is skipped when the stored value already equals the value to store).  The
argument is the `uint8_t` the call receives. -/
def Eeprom.update (v : Nat) (e : Eeprom) : Eeprom :=
  if e.read ≠ v % 256 then e.write v else e

/-- Conversion of an `int` to the `uint8_t` parameter of `EEPROM.update`. -/
def toUint8 (x : Int) : Nat := (x % 256).toNat

/-- Modelled from the spec: the PWM output peripheral is not part of
`main.cpp`; each of the three outputs (pins 9, 10 and 11) holds the duty last
written to it. -/
structure Pwm where
  d9 : Int
  d10 : Int
  d11 : Int
  deriving DecidableEq, Repr

/-- Library call `analogWrite(pin, val)` on the three pins the program uses. -/
def analogWrite (pin val : Int) (o : Pwm) : Pwm :=
  if pin = 9 then { o with d9 := val }
  else if pin = 10 then { o with d10 := val }
  else if pin = 11 then { o with d11 := val }
  else o

/-- Width of one line of the display memory of the character display. -/
def LCD_DDRAM_COLS : Nat := 40

/-- Number of visible characters of a display line (`lcd(0x27, 16, 2)`). -/
def LCD_COLS : Nat := 16

/-- Modelled from the spec: the display driver is not part of `main.cpp`; the
display accepts cursor positioning and text writes on two lines, of which 16
characters are visible, and keeps whatever is not overwritten.  Each line is
the 40-cell memory of the display controller; the program never prints more
than 18 characters on a line. -/
structure Lcd where
  line0 : List Char
  line1 : List Char
  col : Nat
  row : Nat
  deriving DecidableEq, Repr

/-- Library call `lcd.init()`: both lines blank, cursor at the origin. -/
def Lcd.init : Lcd :=
  { line0 := List.replicate LCD_DDRAM_COLS ' ',
    line1 := List.replicate LCD_DDRAM_COLS ' ', col := 0, row := 0 }

/-- Library call `lcd.setCursor(col, row)`. -/
def Lcd.setCursor (c r : Nat) (l : Lcd) : Lcd := { l with col := c, row := r }

/-- One character written at the cursor, which then moves right.  Cells that
are not written keep their content. -/
def Lcd.putChar (l : Lcd) (ch : Char) : Lcd :=
  if l.row = 0 then { l with line0 := l.line0.set l.col ch, col := l.col + 1 }
  else { l with line1 := l.line1.set l.col ch, col := l.col + 1 }

/-- Library call `lcd.print(text)` on a character sequence. -/
def Lcd.printChars (cs : List Char) (l : Lcd) : Lcd := cs.foldl Lcd.putChar l

/-- Decimal digits of `n`, most significant first, appended in front of `acc`;
`fuel` bounds the number of digits. -/
def natDigits : Nat → Nat → List Char → List Char
  | 0, _, acc => acc
  | fuel + 1, n, acc =>
    let acc1 := Char.ofNat (48 + n % 10) :: acc
    if n / 10 = 0 then acc1 else natDigits fuel (n / 10) acc1

/-- The characters `lcd.print(int)` sends: decimal, with a sign when negative. -/
def intChars (x : Int) : List Char :=
  if x < 0 then '-' :: natDigits 20 x.natAbs [] else natDigits 20 x.natAbs []

/-- Library call `lcd.print(int)`. -/
def Lcd.printInt (x : Int) (l : Lcd) : Lcd := l.printChars (intChars x)

/-- The visible part of a display line. -/
def visible (line : List Char) : List Char := line.take LCD_COLS

/-! ## Program state -/

/-- Fields of `class BreathingLED` (lines 63-67). -/
structure BreathingLED where
  pin : Int
  period : Int
  deriving DecidableEq, Repr

/-- Globals of `main.cpp` and the peripherals the program drives. -/
structure State where
  systemMode : Int
  lastDebounceTime : Nat
  saveToEepromPending : Bool
  lastHeartbeat : Nat
  ledRed : BreathingLED
  ledGreen : BreathingLED
  ledBlue : BreathingLED
  lastLcdUpdate : Nat
  displayedMode : Int
  eeprom : Eeprom
  ddrB : Nat
  portB : Nat
  pwm : Pwm
  lcd : Lcd
  deriving DecidableEq, Repr

/-! ## Interrupt handler -/

/-- Function `handleButtonPress` (lines 48-58); `currentTime` is the value
`millis()` returns. -/
def handleButtonPress (currentTime : Nat) (s : State) : State :=
  if subU32 currentTime s.lastDebounceTime > DEBOUNCE_DELAY then
    let s1 := { s with systemMode := s.systemMode + 1 }
    let s2 := if s1.systemMode ≥ MAX_MODES then { s1 with systemMode := 0 } else s1
    { s2 with saveToEepromPending := true, lastDebounceTime := currentTime }
  else s

/-! ## Library arithmetic -/

/-- Modelled from the spec: the library function `map` is not part of
`main.cpp`; it is the linear map of the spec,
`(x - in_min) * (out_max - out_min) / (in_max - in_min) + out_min` in
truncating integer arithmetic.  Its operands are `long`; for every `int`
argument `x` and the bounds used by `loop` no intermediate value leaves the
32-bit range. -/
def map (x in_min in_max out_min out_max : Int) : Int :=
  ((x - in_min) * (out_max - out_min)).tdiv (in_max - in_min) + out_min

/-- Modelled from the spec: the library macro `constrain` is not part of
`main.cpp`; it clamps `x` into `[a, b]`. -/
def constrain (x a b : Int) : Int :=
  if x < a then a else if x > b then b else x

/-- The arithmetic `BreathingLED::update` is computed in: the carrier `F`
stands for `float`, with the conversions from and to integers the source uses. -/
structure FloatOps (F : Type) where
  ofInt : Int → F
  lit : ℚ → F
  pi : F
  add : F → F → F
  sub : F → F → F
  mul : F → F → F
  div : F → F → F
  sin : F → F
  lt : F → F → Bool
  toInt : F → Int

/-- Truncation of a rational toward zero. -/
def truncQ (q : ℚ) : Int := q.num.tdiv q.den

/-- The conversion of a `float` to the 16-bit `int` over exact values:
truncation toward zero when the result fits `int`; for a value that does not
fit, the language leaves the result undefined and `ovf` supplies it. -/
def castInt (ovf : ℚ → Int) (q : ℚ) : Int :=
  if -32768 ≤ truncQ q ∧ truncQ q ≤ 32767 then truncQ q else ovf q

/-- Exact rational arithmetic, for a given value of `PI`, a given sine and a
given outcome `ovf` of the conversions to `int` that overflow.  It is not the
binary32 arithmetic of the target, whose results it does not reproduce; it
only provides a concrete `FloatOps` on which statements that hold for every
arithmetic are evaluated. -/
def exactOps (piQ : ℚ) (sinQ : ℚ → ℚ) (ovf : ℚ → Int) : FloatOps ℚ where
  ofInt := fun n => (n : ℚ)
  lit := fun q => q
  pi := piQ
  add := fun a b => a + b
  sub := fun a b => a - b
  mul := fun a b => a * b
  div := fun a b => a / b
  sin := sinQ
  lt := fun a b => decide (a < b)
  toInt := castInt ovf

/-! ## `class BreathingLED` -/

/-- Constructor `BreathingLED(int p)` (lines 69-72). -/
def BreathingLED.mk0 (p : Int) : BreathingLED := { pin := p, period := 3000 }

/-- Method `setPeriod` (lines 78-80); the argument is the integer the `float`
parameter holds. -/
def BreathingLED.setPeriod (newPeriod : Int) (led : BreathingLED) : BreathingLED :=
  { led with period := newPeriod }

/-- Method `getPeriod` (lines 82-84): the cast `(int)period` of a period that
holds an integer within the `int` range. -/
def BreathingLED.getPeriod (led : BreathingLED) : Int := led.period

/-- The value of the local `brightness` of `update` before `constrain`
(lines 87-105). -/
def BreathingLED.brightness {F : Type} (fp : FloatOps F) (led : BreathingLED)
    (currentMillis : Nat) (mode : Int) : Int :=
  let angle := fp.div (fp.mul (fp.mul (fp.lit 2) fp.pi) (fp.ofInt currentMillis))
    (fp.ofInt led.period)
  if mode = 1 then
    let normalized := fp.div angle (fp.mul (fp.lit 2) fp.pi)
    let normalized := fp.sub normalized (fp.ofInt (fp.toInt normalized))
    if fp.lt normalized (fp.lit (1/2)) then
      fp.toInt (fp.mul (fp.mul normalized (fp.lit 2)) (fp.lit 255))
    else
      fp.toInt (fp.mul (fp.mul (fp.sub (fp.lit 1) normalized) (fp.lit 2)) (fp.lit 255))
  else
    fp.toInt (fp.mul (fp.add (fp.sin angle) (fp.lit 1)) (fp.lit (255/2)))

/-- The duty value `update` passes to `analogWrite` (line 107). -/
def BreathingLED.duty {F : Type} (fp : FloatOps F) (led : BreathingLED)
    (currentMillis : Nat) (mode : Int) : Int :=
  constrain (led.brightness fp currentMillis mode) 0 255

/-- Method `update` (lines 86-109), acting on the PWM outputs. -/
def BreathingLED.update {F : Type} (fp : FloatOps F) (led : BreathingLED)
    (currentMillis : Nat) (mode : Int) (o : Pwm) : Pwm :=
  analogWrite led.pin (led.duty fp currentMillis mode) o

/-! ## `setup` -/

/-- The state at reset: the initialisers of the globals (lines 28-41, 112-123),
the I/O registers cleared, and the given content of the non-volatile store. -/
def powerOn (e : Eeprom) : State :=
  { systemMode := 0, lastDebounceTime := 0, saveToEepromPending := false,
    lastHeartbeat := 0,
    ledRed := BreathingLED.mk0 9, ledGreen := BreathingLED.mk0 10,
    ledBlue := BreathingLED.mk0 11,
    lastLcdUpdate := 0, displayedMode := -1,
    eeprom := e, ddrB := 0, portB := 0,
    pwm := { d9 := 0, d10 := 0, d11 := 0 }, lcd := Lcd.init }

/-- Function `setup` (lines 125-159).  The watchdog, the serial port and the pin
directions of the LEDs and of the button have no state in this model. -/
def setup (s : State) : State :=
  let s := { s with ddrB := s.ddrB ||| (1 <<< 5) }
  let savedMode : Int := (s.eeprom.read : Int)
  let s :=
    if savedMode ≥ 0 ∧ savedMode < MAX_MODES then { s with systemMode := savedMode }
    else { s with systemMode := 0 }
  { s with lcd := Lcd.init }

/-! ## `loop` -/

/-- What one iteration of `loop` reads from outside: `millis()` and the three
`analogRead` samples. -/
structure LoopInput where
  currentMillis : Nat
  valRed : Int
  valGreen : Int
  valBlue : Int
  deriving DecidableEq, Repr

/-- First statement of the flush (line 170). -/
def flushClear (s : State) : State := { s with saveToEepromPending := false }

/-- Second statement of the flush (line 172). -/
def flushStore (s : State) : State :=
  { s with eeprom := s.eeprom.update (toUint8 s.systemMode) }

/-- The flush at the top of `loop` (lines 169-173). -/
def flush (s : State) : State :=
  if s.saveToEepromPending then flushStore (flushClear s) else s

/-- The heartbeat step of `loop` (lines 179-183). -/
def heartbeat (currentMillis : Nat) (s : State) : State :=
  if subU32 currentMillis s.lastHeartbeat ≥ HEARTBEAT_INTERVAL then
    { s with lastHeartbeat := currentMillis, portB := s.portB ^^^ (1 <<< 5) }
  else s

/-- The period assignment of `loop` (lines 191-200). -/
def assignPeriods (i : LoopInput) (s : State) : State :=
  if s.systemMode = 2 then
    let sharedPeriod := map i.valRed 0 1023 500 5000
    { s with ledRed := s.ledRed.setPeriod sharedPeriod,
             ledGreen := s.ledGreen.setPeriod sharedPeriod,
             ledBlue := s.ledBlue.setPeriod sharedPeriod }
  else
    { s with ledRed := s.ledRed.setPeriod (map i.valRed 0 1023 500 5000),
             ledGreen := s.ledGreen.setPeriod (map i.valGreen 0 1023 500 5000),
             ledBlue := s.ledBlue.setPeriod (map i.valBlue 0 1023 500 5000) }

/-- The three `update` calls of `loop` (lines 203-205). -/
def updateLeds {F : Type} (fp : FloatOps F) (currentMillis : Nat) (s : State) : State :=
  let o := s.ledRed.update fp currentMillis s.systemMode s.pwm
  let o := s.ledGreen.update fp currentMillis s.systemMode o
  let o := s.ledBlue.update fp currentMillis s.systemMode o
  { s with pwm := o }

/-- The test that guards the display refresh (line 208). -/
def refreshDue (currentMillis : Nat) (s : State) : Bool :=
  decide (subU32 currentMillis s.lastLcdUpdate ≥ LCD_INTERVAL) || decide (s.displayedMode ≠ s.systemMode)

/-- First display line of a refresh (lines 212-216). -/
def renderLine0 (systemMode : Int) (l : Lcd) : Lcd :=
  let l := l.setCursor 0 0
  let l := l.printChars "Mode: ".data
  if systemMode = 0 then l.printChars "Sine Indep ".data
  else if systemMode = 1 then l.printChars "Triang Ind ".data
  else if systemMode = 2 then l.printChars "Sine Sync  ".data
  else l

/-- Second display line of a refresh (lines 218-228); `pRed`, `pGreen` and
`pBlue` are the values the `getPeriod()` calls return. -/
def renderLine1 (systemMode pRed pGreen pBlue : Int) (l : Lcd) : Lcd :=
  let l := l.setCursor 0 1
  if systemMode = 2 then
    let l := l.printChars "Speed: ".data
    let l := l.printInt pRed
    l.printChars " ms   ".data
  else
    let l := l.printChars "R".data
    let l := l.printInt (pRed.tdiv 100)
    let l := l.printChars " G".data
    let l := l.printInt (pGreen.tdiv 100)
    let l := l.printChars " B".data
    let l := l.printInt (pBlue.tdiv 100)
    l.printChars "  ".data

/-- The display refresh of `loop` (lines 208-229). -/
def refreshDisplay (currentMillis : Nat) (s : State) : State :=
  if refreshDue currentMillis s then
    let s := { s with lastLcdUpdate := currentMillis, displayedMode := s.systemMode }
    let l := renderLine0 s.systemMode s.lcd
    let l := renderLine1 s.systemMode s.ledRed.getPeriod s.ledGreen.getPeriod
      s.ledBlue.getPeriod l
    { s with lcd := l }
  else s

/-- Function `loop` (lines 161-230): one iteration. -/
def loop {F : Type} (fp : FloatOps F) (i : LoopInput) (s : State) : State :=
  let s := flush s
  let s := heartbeat i.currentMillis s
  let s := assignPeriods i s
  let s := updateLeds fp i.currentMillis s
  refreshDisplay i.currentMillis s

/-- A degree-seven polynomial that stands in for the sine when an example is
evaluated; no statement depends on it. -/
def sinPoly (x : ℚ) : ℚ := x - x ^ 3 / 6 + x ^ 5 / 120 - x ^ 7 / 5040

/-- A concrete arithmetic on which examples are evaluated. -/
def sampleOps : FloatOps ℚ := exactOps (355 / 113) sinPoly (fun _ => 0)

/-- The program from reset up to the first call of `loop`. -/
def boot (e : Eeprom) : State := setup (powerOn e)

/-- What can happen after `setup`: a button edge served by the handler at a
clock value, or one iteration of `loop`. -/
inductive Event where
  | press (currentTime : Nat)
  | iteration (i : LoopInput)
  deriving DecidableEq, Repr

/-- One event applied to the state. -/
def step {F : Type} (fp : FloatOps F) (s : State) : Event → State
  | .press t => handleButtonPress t s
  | .iteration i => loop fp i s

/-- A finite sequence of events applied in order. -/
def run {F : Type} (fp : FloatOps F) (s : State) (es : List Event) : State :=
  es.foldl (step fp) s

/-- A sequence of button edges served in order. -/
def presses (s : State) (ts : List Nat) : State :=
  ts.foldl (fun st t => handleButtonPress t st) s

/-- Every edge of the sequence passes the debounce test of the handler. -/
def allAccepted : State → List Nat → Bool
  | _, [] => true
  | s, t :: ts =>
    decide (subU32 t s.lastDebounceTime > DEBOUNCE_DELAY) && allAccepted (handleButtonPress t s) ts

/-- The three LED objects still carry the pins they were constructed with. -/
def pinsOk (s : State) : Prop :=
  s.ledRed.pin = 9 ∧ s.ledGreen.pin = 10 ∧ s.ledBlue.pin = 11

/-- The three values `getPeriod() / 100` that a refresh prints in modes 0 and 1. -/
def periodFields (s : State) : Int × Int × Int :=
  (s.ledRed.getPeriod.tdiv 100, s.ledGreen.getPeriod.tdiv 100, s.ledBlue.getPeriod.tdiv 100)

/-- The three periods the channels hold. -/
def periods (s : State) : Int × Int × Int :=
  (s.ledRed.period, s.ledGreen.period, s.ledBlue.period)

/-! ## `loop` in smaller steps -/

/-- The statements of `loop` that follow the flush (lines 175-229). -/
def loopTail {F : Type} (fp : FloatOps F) (i : LoopInput) (s : State) : State :=
  refreshDisplay i.currentMillis
    (updateLeds fp i.currentMillis (assignPeriods i (heartbeat i.currentMillis s)))

/-- Where the main program stands inside an iteration of `loop`: before the
flush, between the two statements of the flush (flag cleared, store not yet
updated), or after the flush. -/
inductive Phase where
  | top
  | cleared
  | body
  deriving DecidableEq, Repr

/-- The state together with the position of the main program. -/
structure Machine where
  s : State
  phase : Phase
  deriving DecidableEq, Repr

/-- What can happen next: the interrupt handler runs (atomically) at a clock
value, or the main program executes its next step. -/
inductive Micro where
  | press (currentTime : Nat)
  | advance (i : LoopInput)
  deriving DecidableEq, Repr

/-- One small step.  The main program tests the flag and clears it (line 169-170),
then updates the store (line 172), then runs the rest of `loop`; the handler may
run between any two of these steps. -/
def microStep {F : Type} (fp : FloatOps F) (m : Machine) : Micro → Machine
  | .press t => { m with s := handleButtonPress t m.s }
  | .advance i =>
    match m.phase with
    | .top =>
      if m.s.saveToEepromPending then { s := flushClear m.s, phase := .cleared }
      else { s := m.s, phase := .body }
    | .cleared => { s := flushStore m.s, phase := .body }
    | .body => { s := loopTail fp i m.s, phase := .top }

/-- A flush during which the handler runs between the clear and the store. -/
def flushWithPress (t : Nat) (s : State) : State :=
  flushStore (handleButtonPress t (flushClear s))

/-- A finite sequence of small steps applied in order. -/
def microRun {F : Type} (fp : FloatOps F) (m : Machine) (es : List Micro) : Machine :=
  es.foldl (microStep fp) m

/-- The store agrees with the mode whenever no request is pending and no flush
is part-way through; the mode is in range. -/
def storeInv (m : Machine) : Prop :=
  (0 ≤ m.s.systemMode ∧ m.s.systemMode < 3) ∧
  (m.phase ≠ Phase.cleared → m.s.saveToEepromPending = false →
    (m.s.eeprom.read : Int) = m.s.systemMode)

/-- The names of the three modes as the display shows them. -/
def modeName (m : Int) : List Char :=
  if m = 0 then "Sine Indep".data
  else if m = 1 then "Triang Ind".data
  else "Sine Sync".data

/-- The visible first line for mode `m`: `Mode: `, the name of the mode, blanks
up to the last visible column. -/
def modeShown (m : Int) : List Char :=
  ("Mode: ".data ++ modeName m ++ List.replicate LCD_COLS ' ').take LCD_COLS

/-- The first display line has its full width and, once a refresh has taken
place, shows the mode recorded in `displayedMode`. -/
def displayInv (s : State) : Prop :=
  s.lcd.line0.length = LCD_DDRAM_COLS ∧
  (s.displayedMode = -1 ∨
    ((0 ≤ s.displayedMode ∧ s.displayedMode < 3) ∧
      visible s.lcd.line0 = modeShown s.displayedMode))

/-! ## Basic facts about the embedding -/

theorem subU32_lt (a b : Nat) : subU32 a b < U32 := by
  unfold subU32 U32
  omega

theorem subU32_add (t0 D : Nat) (hD : D < U32) :
    subU32 ((t0 + D) % U32) t0 = D := by
  unfold subU32 U32 at *
  omega

theorem handleButtonPress_accept (t : Nat) (s : State)
    (h : subU32 t s.lastDebounceTime > DEBOUNCE_DELAY) :
    handleButtonPress t s =
      { s with systemMode := if s.systemMode + 1 ≥ MAX_MODES then 0 else s.systemMode + 1,
               saveToEepromPending := true, lastDebounceTime := t } := by
  unfold handleButtonPress
  rw [if_pos h]
  by_cases hm : s.systemMode + 1 ≥ MAX_MODES <;> simp [hm]

theorem handleButtonPress_reject (t : Nat) (s : State)
    (h : ¬ subU32 t s.lastDebounceTime > DEBOUNCE_DELAY) :
    handleButtonPress t s = s := by
  unfold handleButtonPress
  rw [if_neg h]

theorem handleButtonPress_mode_range (t : Nat) (s : State)
    (h : 0 ≤ s.systemMode ∧ s.systemMode < 3) :
    0 ≤ (handleButtonPress t s).systemMode ∧ (handleButtonPress t s).systemMode < 3 := by
  by_cases hd : subU32 t s.lastDebounceTime > DEBOUNCE_DELAY
  · rw [handleButtonPress_accept t s hd]
    simp only [MAX_MODES]
    split <;> omega
  · rw [handleButtonPress_reject t s hd]
    exact h

/-! ## Debounce and mode cycling -/

/-- C1: when the previous edge was accepted at `lastDebounceTime` and the next
edge comes `D` milliseconds later on the 32-bit clock, the handler accepts it
(advances `systemMode`, raises `saveToEepromPending`, records the new time)
exactly when `D > 200`; for `D ≤ 200` the state is left as it was. -/
theorem handleButtonPress_debounce (s : State) (D : Nat) (hD : D < 2 ^ 32) :
    (200 < D ↔
      ((handleButtonPress ((s.lastDebounceTime + D) % 2 ^ 32) s).systemMode
          = (if s.systemMode + 1 ≥ 3 then 0 else s.systemMode + 1) ∧
       (handleButtonPress ((s.lastDebounceTime + D) % 2 ^ 32) s).saveToEepromPending = true ∧
       (handleButtonPress ((s.lastDebounceTime + D) % 2 ^ 32) s).lastDebounceTime
          = (s.lastDebounceTime + D) % 2 ^ 32)) ∧
    (D ≤ 200 → handleButtonPress ((s.lastDebounceTime + D) % 2 ^ 32) s = s) := by
  have hsub : subU32 ((s.lastDebounceTime + D) % 2 ^ 32) s.lastDebounceTime = D :=
    subU32_add s.lastDebounceTime D hD
  have hrej : D ≤ 200 → handleButtonPress ((s.lastDebounceTime + D) % 2 ^ 32) s = s := by
    intro h
    apply handleButtonPress_reject
    rw [hsub]
    simp only [DEBOUNCE_DELAY]
    omega
  refine ⟨⟨?_, ?_⟩, hrej⟩
  · intro h
    have hacc : subU32 ((s.lastDebounceTime + D) % 2 ^ 32) s.lastDebounceTime
        > DEBOUNCE_DELAY := by
      rw [hsub]
      exact h
    rw [handleButtonPress_accept _ s hacc]
    simp [MAX_MODES]
  · rintro ⟨hmode, -, -⟩
    by_contra hle
    rw [hrej (by omega)] at hmode
    split at hmode <;> omega

/-- C1 at a concrete state: last accepted edge at 1000 ms, next edge 201 ms later. -/
theorem handleButtonPress_debounce_witness :
    (handleButtonPress 1201 { powerOn ⟨0, 0⟩ with lastDebounceTime := 1000 }).systemMode = 1 ∧
    handleButtonPress 1200 { powerOn ⟨0, 0⟩ with lastDebounceTime := 1000 }
      = { powerOn ⟨0, 0⟩ with lastDebounceTime := 1000 } := by
  have h1 := handleButtonPress_debounce { powerOn ⟨0, 0⟩ with lastDebounceTime := 1000 } 201
    (by decide)
  have h2 := handleButtonPress_debounce { powerOn ⟨0, 0⟩ with lastDebounceTime := 1000 } 200
    (by decide)
  exact ⟨(h1.1.1 (by decide)).1, h2.2 (by decide)⟩

/-- C2: from a mode `m` in `{0, 1, 2}`, `N` button edges that each pass the
debounce test leave `systemMode` equal to `(m + N) mod 3`. -/
theorem presses_mode_cycle (s : State) (ts : List Nat)
    (hm : 0 ≤ s.systemMode ∧ s.systemMode < 3) (hacc : allAccepted s ts = true) :
    (presses s ts).systemMode = (s.systemMode + ts.length) % 3 := by
  induction ts generalizing s with
  | nil =>
    simp only [presses, List.foldl_nil, List.length_nil]
    omega
  | cons t ts ih =>
    simp only [allAccepted, Bool.and_eq_true, decide_eq_true_eq] at hacc
    obtain ⟨hd, hrest⟩ := hacc
    have hrange := handleButtonPress_mode_range t s hm
    have hstep := ih (handleButtonPress t s) hrange hrest
    have hmode : (handleButtonPress t s).systemMode
        = if s.systemMode + 1 ≥ 3 then 0 else s.systemMode + 1 := by
      rw [handleButtonPress_accept t s hd]
      simp [MAX_MODES]
    simp only [presses, List.foldl_cons, List.length_cons] at hstep ⊢
    rw [hstep, hmode]
    push_cast
    split <;> omega

/-- C2 at a concrete run: four accepted edges from mode 2 end in mode 0. -/
theorem presses_mode_cycle_witness :
    (presses { powerOn ⟨2, 0⟩ with systemMode := 2 } [300, 600, 900, 1200]).systemMode
      = (2 + 4) % 3 :=
  presses_mode_cycle { powerOn ⟨2, 0⟩ with systemMode := 2 } [300, 600, 900, 1200]
    (by decide) (by decide)

/-! ## Start-up and persistence -/

theorem setup_systemMode (s : State) :
    (setup s).systemMode
      = (if 0 ≤ (s.eeprom.read : Int) ∧ (s.eeprom.read : Int) < 3 then (s.eeprom.read : Int)
         else 0) := by
  unfold setup
  simp only [MAX_MODES]
  split <;> rfl

/-- C3: `setup` sets `systemMode` to the byte read from the store when it lies
in `[0, 3)` and to 0 otherwise (a byte is never negative); it leaves the store
and `saveToEepromPending` as they were, and the flag is false after boot. -/
theorem setup_startup_default (s : State) :
    (setup s).systemMode
      = (if 0 ≤ (s.eeprom.read : Int) ∧ (s.eeprom.read : Int) < 3 then (s.eeprom.read : Int)
         else 0) ∧
    (setup s).eeprom = s.eeprom ∧
    (setup s).saveToEepromPending = s.saveToEepromPending ∧
    (boot s.eeprom).eeprom = s.eeprom ∧
    (boot s.eeprom).saveToEepromPending = false := by
  refine ⟨setup_systemMode s, ?_, ?_, ?_, ?_⟩
  · unfold setup
    simp only [MAX_MODES]
    split <;> rfl
  · unfold setup
    simp only [MAX_MODES]
    split <;> rfl
  · unfold boot setup
    simp only [MAX_MODES]
    split <;> rfl
  · unfold boot setup
    simp only [MAX_MODES]
    split <;> rfl

theorem flush_pending (s : State) : (flush s).saveToEepromPending = false := by
  unfold flush
  by_cases h : s.saveToEepromPending = true
  · rw [if_pos h]; rfl
  · rw [if_neg h]; simpa using h

theorem flush_systemMode (s : State) : (flush s).systemMode = s.systemMode := by
  unfold flush
  split <;> rfl

theorem toUint8_of_byte (x : Int) (h : 0 ≤ x ∧ x < 256) : ((toUint8 x : Nat) : Int) = x := by
  unfold toUint8
  omega

theorem update_read (v : Nat) (e : Eeprom) : (e.update v).read = v % 256 := by
  unfold Eeprom.update Eeprom.write Eeprom.read
  by_cases h : e.cell % 256 = v % 256
  · simp [h]
  · simp [h]

/-- C4: from a mode in `{0, 1, 2}`, after an accepted press has set the mode to
`M`, the flush at the top of `loop` leaves the stored byte equal to `M` and
`saveToEepromPending` false, and `setup` run against that store sets
`systemMode` to `M`. -/
theorem persistence_round_trip (s : State) (now : Nat)
    (hm : 0 ≤ s.systemMode ∧ s.systemMode < 3)
    (hacc : subU32 now s.lastDebounceTime > DEBOUNCE_DELAY) :
    ((flush (handleButtonPress now s)).eeprom.read : Int)
      = (handleButtonPress now s).systemMode ∧
    (flush (handleButtonPress now s)).saveToEepromPending = false ∧
    (boot (flush (handleButtonPress now s)).eeprom).systemMode
      = (handleButtonPress now s).systemMode ∧
    (setup (flush (handleButtonPress now s))).systemMode
      = (handleButtonPress now s).systemMode := by
  have hrange := handleButtonPress_mode_range now s hm
  have hpend : (handleButtonPress now s).saveToEepromPending = true := by
    rw [handleButtonPress_accept now s hacc]
  have hread : ((flush (handleButtonPress now s)).eeprom.read : Int)
      = (handleButtonPress now s).systemMode := by
    unfold flush
    rw [if_pos hpend]
    simp only [flushStore, flushClear]
    rw [update_read]
    have h8 := toUint8_of_byte (handleButtonPress now s).systemMode ⟨hrange.1, by omega⟩
    omega
  have hboot : ∀ st : State, st.eeprom = (flush (handleButtonPress now s)).eeprom →
      (setup st).systemMode = (handleButtonPress now s).systemMode := by
    intro st hst
    rw [setup_systemMode st, hst, hread, if_pos hrange]
  exact ⟨hread, flush_pending _, hboot _ rfl, hboot _ rfl⟩

/-- C4 at a concrete state: mode 0 with 7 in the store, an edge at 500 ms. -/
theorem persistence_round_trip_witness :
    ((flush (handleButtonPress 500 (boot ⟨7, 0⟩))).eeprom.read : Int)
      = (handleButtonPress 500 (boot ⟨7, 0⟩)).systemMode ∧
    (flush (handleButtonPress 500 (boot ⟨7, 0⟩))).saveToEepromPending = false ∧
    (boot (flush (handleButtonPress 500 (boot ⟨7, 0⟩))).eeprom).systemMode
      = (handleButtonPress 500 (boot ⟨7, 0⟩)).systemMode ∧
    (setup (flush (handleButtonPress 500 (boot ⟨7, 0⟩)))).systemMode
      = (handleButtonPress 500 (boot ⟨7, 0⟩)).systemMode :=
  persistence_round_trip (boot ⟨7, 0⟩) 500 (by decide) (by decide)

/-! ## What the steps of `loop` leave alone -/

theorem heartbeat_frame (t : Nat) (s : State) :
    (heartbeat t s).systemMode = s.systemMode ∧ (heartbeat t s).eeprom = s.eeprom ∧
    (heartbeat t s).saveToEepromPending = s.saveToEepromPending ∧
    (heartbeat t s).lastDebounceTime = s.lastDebounceTime ∧
    (heartbeat t s).ledRed = s.ledRed ∧ (heartbeat t s).ledGreen = s.ledGreen ∧
    (heartbeat t s).ledBlue = s.ledBlue := by
  unfold heartbeat
  split <;> simp

theorem assignPeriods_frame (i : LoopInput) (s : State) :
    (assignPeriods i s).systemMode = s.systemMode ∧ (assignPeriods i s).eeprom = s.eeprom ∧
    (assignPeriods i s).saveToEepromPending = s.saveToEepromPending ∧
    (assignPeriods i s).lastDebounceTime = s.lastDebounceTime ∧
    (assignPeriods i s).ledRed.pin = s.ledRed.pin ∧
    (assignPeriods i s).ledGreen.pin = s.ledGreen.pin ∧
    (assignPeriods i s).ledBlue.pin = s.ledBlue.pin := by
  unfold assignPeriods
  split <;> simp [BreathingLED.setPeriod]

theorem updateLeds_frame {F : Type} (fp : FloatOps F) (t : Nat) (s : State) :
    (updateLeds fp t s).systemMode = s.systemMode ∧ (updateLeds fp t s).eeprom = s.eeprom ∧
    (updateLeds fp t s).saveToEepromPending = s.saveToEepromPending ∧
    (updateLeds fp t s).lastDebounceTime = s.lastDebounceTime ∧
    (updateLeds fp t s).ledRed = s.ledRed ∧ (updateLeds fp t s).ledGreen = s.ledGreen ∧
    (updateLeds fp t s).ledBlue = s.ledBlue := by
  simp [updateLeds]

theorem refreshDisplay_frame (t : Nat) (s : State) :
    (refreshDisplay t s).systemMode = s.systemMode ∧ (refreshDisplay t s).eeprom = s.eeprom ∧
    (refreshDisplay t s).saveToEepromPending = s.saveToEepromPending ∧
    (refreshDisplay t s).lastDebounceTime = s.lastDebounceTime ∧
    (refreshDisplay t s).ledRed = s.ledRed ∧ (refreshDisplay t s).ledGreen = s.ledGreen ∧
    (refreshDisplay t s).ledBlue = s.ledBlue ∧ (refreshDisplay t s).pwm = s.pwm := by
  unfold refreshDisplay
  split <;> simp

theorem flush_frame (s : State) :
    (flush s).lastDebounceTime = s.lastDebounceTime ∧
    (flush s).ledRed = s.ledRed ∧ (flush s).ledGreen = s.ledGreen ∧
    (flush s).ledBlue = s.ledBlue := by
  unfold flush
  split <;> simp [flushStore, flushClear]

theorem loop_systemMode {F : Type} (fp : FloatOps F) (i : LoopInput) (s : State) :
    (loop fp i s).systemMode = s.systemMode := by
  unfold loop
  simp only [(refreshDisplay_frame _ _).1, (updateLeds_frame fp _ _).1,
    (assignPeriods_frame _ _).1, (heartbeat_frame _ _).1, flush_systemMode]

theorem loop_eeprom {F : Type} (fp : FloatOps F) (i : LoopInput) (s : State) :
    (loop fp i s).eeprom = (flush s).eeprom := by
  unfold loop
  simp only [(refreshDisplay_frame _ _).2.1, (updateLeds_frame fp _ _).2.1,
    (assignPeriods_frame _ _).2.1, (heartbeat_frame _ _).2.1]

theorem loop_pending {F : Type} (fp : FloatOps F) (i : LoopInput) (s : State) :
    (loop fp i s).saveToEepromPending = false := by
  unfold loop
  simp only [(refreshDisplay_frame _ _).2.2.1, (updateLeds_frame fp _ _).2.2.1,
    (assignPeriods_frame _ _).2.2.1, (heartbeat_frame _ _).2.2.1, flush_pending]

/-- C5: for a mode that fits the stored byte (in particular for the modes 0, 1
and 2) the flush of `loop` performs a physical write exactly when
`saveToEepromPending` is set and the stored byte differs from `systemMode`;
otherwise the store is left untouched, and the rest of `loop` never touches it. -/
theorem flush_write_iff {F : Type} (fp : FloatOps F) (i : LoopInput) (s : State)
    (hm : 0 ≤ s.systemMode ∧ s.systemMode < 256) :
    ((flush s).eeprom.writes = s.eeprom.writes + 1 ↔
      (s.saveToEepromPending = true ∧ (s.eeprom.read : Int) ≠ s.systemMode)) ∧
    (¬ (s.saveToEepromPending = true ∧ (s.eeprom.read : Int) ≠ s.systemMode) →
      (flush s).eeprom = s.eeprom) ∧
    (loop fp i s).eeprom = (flush s).eeprom := by
  have h8 := toUint8_of_byte s.systemMode hm
  have hlt : toUint8 s.systemMode < 256 := by omega
  refine ⟨?_, ?_, loop_eeprom fp i s⟩
  · unfold flush
    by_cases hp : s.saveToEepromPending = true
    · rw [if_pos hp]
      simp only [flushStore, flushClear, Eeprom.update, Eeprom.write, Nat.mod_eq_of_lt hlt]
      by_cases hr : s.eeprom.read = toUint8 s.systemMode
      · have : (s.eeprom.read : Int) = s.systemMode := by omega
        simp [hr, this, h8]
      · have : (s.eeprom.read : Int) ≠ s.systemMode := by omega
        simp [hr, hp, this]
    · rw [if_neg hp]
      simp [hp]
  · intro hno
    unfold flush
    by_cases hp : s.saveToEepromPending = true
    · rw [if_pos hp]
      have hr : s.eeprom.read = toUint8 s.systemMode := by
        by_contra hne
        exact hno ⟨hp, by omega⟩
      simp [flushStore, flushClear, Eeprom.update, Nat.mod_eq_of_lt hlt, hr]
    · rw [if_neg hp]

/-- C5 at a concrete state: the flag is set and the store already holds the
mode, so no write takes place. -/
theorem flush_write_iff_witness :
    (flush { powerOn ⟨2, 5⟩ with systemMode := 2, saveToEepromPending := true }).eeprom
      = ⟨2, 5⟩ :=
  (flush_write_iff sampleOps ⟨0, 0, 0, 0⟩
    { powerOn ⟨2, 5⟩ with systemMode := 2, saveToEepromPending := true }
    (by decide)).2.1 (by decide)

/-! ## Mode range -/

theorem boot_mode_range (e : Eeprom) :
    0 ≤ (boot e).systemMode ∧ (boot e).systemMode < 3 := by
  unfold boot
  rw [setup_systemMode (powerOn e)]
  split <;> omega

theorem step_mode_range {F : Type} (fp : FloatOps F) (s : State) (ev : Event)
    (h : 0 ≤ s.systemMode ∧ s.systemMode < 3) :
    0 ≤ (step fp s ev).systemMode ∧ (step fp s ev).systemMode < 3 := by
  cases ev with
  | press t => exact handleButtonPress_mode_range t s h
  | iteration i =>
    simp only [step, loop_systemMode]
    exact h

theorem run_mode_range {F : Type} (fp : FloatOps F) (s : State) (es : List Event)
    (h : 0 ≤ s.systemMode ∧ s.systemMode < 3) :
    0 ≤ (run fp s es).systemMode ∧ (run fp s es).systemMode < 3 := by
  induction es generalizing s with
  | nil => exact h
  | cons ev es ih => exact ih (step fp s ev) (step_mode_range fp s ev h)

/-- C6: for every stored byte at boot, after `setup` and any finite sequence of
handler calls (at arbitrary times) and `loop` iterations, `systemMode` is in
`{0, 1, 2}`; and `loop` never changes `systemMode`. -/
theorem mode_range_invariant {F : Type} (fp : FloatOps F) (e : Eeprom) (es : List Event) :
    (0 ≤ (run fp (boot e) es).systemMode ∧ (run fp (boot e) es).systemMode < 3) ∧
    (∀ (i : LoopInput) (s : State), (loop fp i s).systemMode = s.systemMode) :=
  ⟨run_mode_range fp (boot e) es (boot_mode_range e), fun i s => loop_systemMode fp i s⟩

/-! ## Brightness -/

theorem constrain_range (x a b : Int) (hab : a ≤ b) :
    a ≤ constrain x a b ∧ constrain x a b ≤ b := by
  unfold constrain
  split
  · omega
  · split <;> omega

theorem duty_range {F : Type} (fp : FloatOps F) (led : BreathingLED) (t : Nat) (mode : Int) :
    0 ≤ led.duty fp t mode ∧ led.duty fp t mode ≤ 255 :=
  constrain_range _ 0 255 (by omega)

theorem setup_leds (s : State) :
    (setup s).ledRed = s.ledRed ∧ (setup s).ledGreen = s.ledGreen ∧
    (setup s).ledBlue = s.ledBlue := by
  unfold setup
  simp only [MAX_MODES]
  split <;> simp

theorem handleButtonPress_leds (t : Nat) (s : State) :
    (handleButtonPress t s).ledRed = s.ledRed ∧ (handleButtonPress t s).ledGreen = s.ledGreen ∧
    (handleButtonPress t s).ledBlue = s.ledBlue := by
  unfold handleButtonPress
  split
  · simp only [MAX_MODES]
    split <;> simp
  · simp

theorem loop_pins {F : Type} (fp : FloatOps F) (i : LoopInput) (s : State) :
    (loop fp i s).ledRed.pin = s.ledRed.pin ∧ (loop fp i s).ledGreen.pin = s.ledGreen.pin ∧
    (loop fp i s).ledBlue.pin = s.ledBlue.pin := by
  unfold loop
  simp only [(refreshDisplay_frame _ _).2.2.2.2.1, (refreshDisplay_frame _ _).2.2.2.2.2.1,
    (refreshDisplay_frame _ _).2.2.2.2.2.2.1,
    (updateLeds_frame fp _ _).2.2.2.2.1, (updateLeds_frame fp _ _).2.2.2.2.2.1,
    (updateLeds_frame fp _ _).2.2.2.2.2.2,
    (assignPeriods_frame _ _).2.2.2.2.1, (assignPeriods_frame _ _).2.2.2.2.2.1,
    (assignPeriods_frame _ _).2.2.2.2.2.2,
    (heartbeat_frame _ _).2.2.2.2.1, (heartbeat_frame _ _).2.2.2.2.2.1,
    (heartbeat_frame _ _).2.2.2.2.2.2,
    (flush_frame _).2.1, (flush_frame _).2.2.1, (flush_frame _).2.2.2]
  exact ⟨trivial, trivial, trivial⟩

theorem boot_pinsOk (e : Eeprom) : pinsOk (boot e) := by
  unfold pinsOk boot
  rw [(setup_leds _).1, (setup_leds _).2.1, (setup_leds _).2.2]
  exact ⟨rfl, rfl, rfl⟩

theorem run_pinsOk {F : Type} (fp : FloatOps F) (s : State) (es : List Event)
    (h : pinsOk s) : pinsOk (run fp s es) := by
  induction es generalizing s with
  | nil => exact h
  | cons ev es ih =>
    apply ih (step fp s ev)
    unfold pinsOk at h ⊢
    cases ev with
    | press t =>
      simp only [step]
      rw [(handleButtonPress_leds t s).1, (handleButtonPress_leds t s).2.1,
        (handleButtonPress_leds t s).2.2]
      exact h
    | iteration i =>
      simp only [step]
      rw [(loop_pins fp i s).1, (loop_pins fp i s).2.1, (loop_pins fp i s).2.2]
      exact h

theorem updateLeds_pwm {F : Type} (fp : FloatOps F) (t : Nat) (s : State) (h : pinsOk s) :
    (updateLeds fp t s).pwm =
      { d9 := s.ledRed.duty fp t s.systemMode, d10 := s.ledGreen.duty fp t s.systemMode,
        d11 := s.ledBlue.duty fp t s.systemMode } := by
  obtain ⟨h9, h10, h11⟩ := h
  simp [updateLeds, BreathingLED.update, analogWrite, h9, h10, h11]

theorem loop_pwm {F : Type} (fp : FloatOps F) (i : LoopInput) (s : State) (h : pinsOk s) :
    (loop fp i s).pwm =
      { d9 := (loop fp i s).ledRed.duty fp i.currentMillis s.systemMode,
        d10 := (loop fp i s).ledGreen.duty fp i.currentMillis s.systemMode,
        d11 := (loop fp i s).ledBlue.duty fp i.currentMillis s.systemMode } := by
  have hp : pinsOk (assignPeriods i (heartbeat i.currentMillis (flush s))) := by
    unfold pinsOk at h ⊢
    rw [(assignPeriods_frame _ _).2.2.2.2.1, (assignPeriods_frame _ _).2.2.2.2.2.1,
      (assignPeriods_frame _ _).2.2.2.2.2.2,
      (heartbeat_frame _ _).2.2.2.2.1, (heartbeat_frame _ _).2.2.2.2.2.1,
      (heartbeat_frame _ _).2.2.2.2.2.2,
      (flush_frame _).2.1, (flush_frame _).2.2.1, (flush_frame _).2.2.2]
    exact h
  have hmode : (assignPeriods i (heartbeat i.currentMillis (flush s))).systemMode
      = s.systemMode := by
    rw [(assignPeriods_frame _ _).1, (heartbeat_frame _ _).1, flush_systemMode]
  unfold loop
  simp only [(refreshDisplay_frame _ _).2.2.2.2.2.2.2, (refreshDisplay_frame _ _).2.2.2.2.1,
    (refreshDisplay_frame _ _).2.2.2.2.2.1, (refreshDisplay_frame _ _).2.2.2.2.2.2.1,
    (updateLeds_frame fp _ _).2.2.2.2.1, (updateLeds_frame fp _ _).2.2.2.2.2.1,
    (updateLeds_frame fp _ _).2.2.2.2.2.2]
  rw [updateLeds_pwm fp _ _ hp, hmode]

/-- C7: the duty value `BreathingLED::update` hands to `analogWrite` lies in
`[0, 255]` for every elapsed time, every period, every mode and every
floating-point behaviour; hence after any `loop` iteration of a run started by
`setup` all three PWM outputs hold a value in `[0, 255]`. -/
theorem update_duty_range {F : Type} (fp : FloatOps F) (led : BreathingLED) (t : Nat)
    (mode : Int) (o : Pwm) (e : Eeprom) (es : List Event) (i : LoopInput) :
    (0 ≤ led.duty fp t mode ∧ led.duty fp t mode ≤ 255) ∧
    led.update fp t mode o = analogWrite led.pin (led.duty fp t mode) o ∧
    (0 ≤ (loop fp i (run fp (boot e) es)).pwm.d9 ∧
      (loop fp i (run fp (boot e) es)).pwm.d9 ≤ 255) ∧
    (0 ≤ (loop fp i (run fp (boot e) es)).pwm.d10 ∧
      (loop fp i (run fp (boot e) es)).pwm.d10 ≤ 255) ∧
    (0 ≤ (loop fp i (run fp (boot e) es)).pwm.d11 ∧
      (loop fp i (run fp (boot e) es)).pwm.d11 ≤ 255) := by
  have hp := run_pinsOk fp (boot e) es (boot_pinsOk e)
  rw [loop_pwm fp i _ hp]
  exact ⟨duty_range fp led t mode, rfl, duty_range fp _ _ _, duty_range fp _ _ _,
    duty_range fp _ _ _⟩

/-! ## Periods -/

theorem map_eq (r : Int) (h : 0 ≤ r) : map r 0 1023 500 5000 = r * 4500 / 1023 + 500 := by
  unfold map
  rw [Int.tdiv_eq_ediv (by omega) (by omega)]
  norm_num

theorem loop_before_refresh {F : Type} (fp : FloatOps F) (i : LoopInput) (s : State) :
    let x := updateLeds fp i.currentMillis (assignPeriods i (heartbeat i.currentMillis (flush s)))
    x.systemMode = s.systemMode ∧ x.lastLcdUpdate = s.lastLcdUpdate ∧
    x.displayedMode = s.displayedMode ∧ x.lcd = s.lcd ∧
    x.ledRed.period = map i.valRed 0 1023 500 5000 ∧
    x.ledGreen.period
      = (if s.systemMode = 2 then map i.valRed 0 1023 500 5000
         else map i.valGreen 0 1023 500 5000) ∧
    x.ledBlue.period
      = (if s.systemMode = 2 then map i.valRed 0 1023 500 5000
         else map i.valBlue 0 1023 500 5000) := by
  intro x
  by_cases hp : s.saveToEepromPending = true <;>
  by_cases hh : subU32 i.currentMillis s.lastHeartbeat ≥ HEARTBEAT_INTERVAL <;>
  by_cases hm : s.systemMode = 2 <;>
  simp [x, updateLeds, assignPeriods, heartbeat, flush, flushStore, flushClear,
    BreathingLED.setPeriod, hp, hh, hm]

theorem loop_periods {F : Type} (fp : FloatOps F) (i : LoopInput) (s : State) :
    periods (loop fp i s) =
      (if s.systemMode = 2 then
        (map i.valRed 0 1023 500 5000, map i.valRed 0 1023 500 5000,
          map i.valRed 0 1023 500 5000)
      else
        (map i.valRed 0 1023 500 5000, map i.valGreen 0 1023 500 5000,
          map i.valBlue 0 1023 500 5000)) := by
  obtain ⟨-, -, -, -, hr, hg, hb⟩ := loop_before_refresh fp i s
  unfold periods loop
  simp only [(refreshDisplay_frame _ _).2.2.2.2.1, (refreshDisplay_frame _ _).2.2.2.2.2.1,
    (refreshDisplay_frame _ _).2.2.2.2.2.2.1]
  rw [hr, hg, hb]
  split <;> rfl

/-- C8: for raw values `0 ≤ r ≤ r' ≤ 1023` the period `map(r, 0, 1023, 500, 5000)`
equals `r * 4500 / 1023 + 500`, lies in `[500, 5000]`, is 500 at 0 and 5000 at
1023 and is non-decreasing; after a `loop` iteration whose three samples are in
`[0, 1023]` each channel period lies in `[500, 5000]`. -/
theorem period_mapping {F : Type} (fp : FloatOps F) (i : LoopInput) (s : State) (r r' : Int)
    (hr : 0 ≤ r) (hrr : r ≤ r') (hr' : r' ≤ 1023)
    (hred : 0 ≤ i.valRed ∧ i.valRed ≤ 1023) (hgreen : 0 ≤ i.valGreen ∧ i.valGreen ≤ 1023)
    (hblue : 0 ≤ i.valBlue ∧ i.valBlue ≤ 1023) :
    map r 0 1023 500 5000 = r * 4500 / 1023 + 500 ∧
    (500 ≤ map r 0 1023 500 5000 ∧ map r 0 1023 500 5000 ≤ 5000) ∧
    map 0 0 1023 500 5000 = 500 ∧ map 1023 0 1023 500 5000 = 5000 ∧
    map r 0 1023 500 5000 ≤ map r' 0 1023 500 5000 ∧
    (500 ≤ (loop fp i s).ledRed.period ∧ (loop fp i s).ledRed.period ≤ 5000) ∧
    (500 ≤ (loop fp i s).ledGreen.period ∧ (loop fp i s).ledGreen.period ≤ 5000) ∧
    (500 ≤ (loop fp i s).ledBlue.period ∧ (loop fp i s).ledBlue.period ≤ 5000) := by
  have hbound : ∀ x : Int, 0 ≤ x → x ≤ 1023 →
      500 ≤ map x 0 1023 500 5000 ∧ map x 0 1023 500 5000 ≤ 5000 := by
    intro x h0 h1
    rw [map_eq x h0]
    omega
  have hper := loop_periods fp i s
  unfold periods at hper
  have hR : (loop fp i s).ledRed.period = map i.valRed 0 1023 500 5000 := by
    have := congrArg Prod.fst hper
    split at this <;> simpa using this
  have hG : (loop fp i s).ledGreen.period = map i.valRed 0 1023 500 5000 ∨
      (loop fp i s).ledGreen.period = map i.valGreen 0 1023 500 5000 := by
    have := congrArg (fun p => p.2.1) hper
    split at this
    · left; simpa using this
    · right; simpa using this
  have hB : (loop fp i s).ledBlue.period = map i.valRed 0 1023 500 5000 ∨
      (loop fp i s).ledBlue.period = map i.valBlue 0 1023 500 5000 := by
    have := congrArg (fun p => p.2.2) hper
    split at this
    · left; simpa using this
    · right; simpa using this
  refine ⟨map_eq r hr, hbound r hr (by omega), by decide, by decide, ?_, ?_, ?_, ?_⟩
  · rw [map_eq r hr, map_eq r' (by omega)]
    omega
  · rw [hR]; exact hbound _ hred.1 hred.2
  · rcases hG with h | h <;> rw [h]
    · exact hbound _ hred.1 hred.2
    · exact hbound _ hgreen.1 hgreen.2
  · rcases hB with h | h <;> rw [h]
    · exact hbound _ hred.1 hred.2
    · exact hbound _ hblue.1 hblue.2

/-- C8 at concrete samples: raw values 512 and 1000, one iteration after boot. -/
theorem period_mapping_witness :
    map 512 0 1023 500 5000 ≤ map 1000 0 1023 500 5000 ∧
    (500 ≤ (loop sampleOps ⟨300, 512, 256, 1000⟩ (boot ⟨0, 0⟩)).ledBlue.period ∧
      (loop sampleOps ⟨300, 512, 256, 1000⟩ (boot ⟨0, 0⟩)).ledBlue.period ≤ 5000) := by
  have h := period_mapping sampleOps ⟨300, 512, 256, 1000⟩ (boot ⟨0, 0⟩) 512 1000
    (by decide) (by decide) (by decide) (by decide) (by decide) (by decide)
  exact ⟨h.2.2.2.2.1, h.2.2.2.2.2.2.2⟩

/-! ## Display -/

theorem set_at_length (pre rest : List Char) (r c : Char) :
    (pre ++ r :: rest).set pre.length c = pre ++ c :: rest := by
  induction pre with
  | nil => rfl
  | cons a pre ih => simp [ih]

theorem printChars_row1 (cs : List Char) :
    ∀ (l : Lcd) (pre rest : List Char), l.row ≠ 0 → l.line1 = pre ++ rest →
      l.col = pre.length → cs.length ≤ rest.length →
      (l.printChars cs).line1 = pre ++ cs ++ rest.drop cs.length ∧
      (l.printChars cs).line0 = l.line0 := by
  induction cs with
  | nil =>
    intro l pre rest _ hline _ _
    simp [Lcd.printChars, hline]
  | cons c cs ih =>
    intro l pre rest hrow hline hcol hlen
    cases rest with
    | nil => simp at hlen
    | cons r rest =>
      have hput : l.putChar c
          = { l with line1 := pre ++ c :: rest, col := l.col + 1 } := by
        unfold Lcd.putChar
        rw [if_neg hrow, hline, hcol, set_at_length]
      have hstep := ih (l.putChar c) (pre ++ [c]) rest (by rw [hput]; exact hrow)
        (by rw [hput]; simp) (by rw [hput]; simp [hcol])
        (by simpa using hlen)
      simp only [Lcd.printChars, List.foldl_cons] at hstep ⊢
      rw [hstep.1, hstep.2, hput]
      simp

theorem printChars_row0 (cs : List Char) :
    ∀ (l : Lcd), l.row = 0 →
      (l.printChars cs).line1 = l.line1 ∧ (l.printChars cs).row = 0 := by
  induction cs with
  | nil => intro l h; exact ⟨rfl, h⟩
  | cons c cs ih =>
    intro l hrow
    have hput : l.putChar c
        = { l with line0 := l.line0.set l.col c, col := l.col + 1 } := by
      unfold Lcd.putChar
      rw [if_pos hrow]
    have hstep := ih (l.putChar c) (by rw [hput]; exact hrow)
    simp only [Lcd.printChars, List.foldl_cons] at hstep ⊢
    rw [hstep.1, hstep.2, hput]
    exact ⟨rfl, rfl⟩

theorem renderLine0_line1 (m : Int) (l : Lcd) : (renderLine0 m l).line1 = l.line1 := by
  have h0 := printChars_row0 "Mode: ".data (l.setCursor 0 0) rfl
  unfold renderLine0
  simp only
  split
  · rw [(printChars_row0 _ _ h0.2).1, h0.1]; rfl
  · split
    · rw [(printChars_row0 _ _ h0.2).1, h0.1]; rfl
    · split
      · rw [(printChars_row0 _ _ h0.2).1, h0.1]; rfl
      · rw [h0.1]; rfl

theorem renderLine1_fields (m pRed pGreen pBlue : Int) (l : Lcd) (hm : m ≠ 2) :
    renderLine1 m pRed pGreen pBlue l =
      (l.setCursor 0 1).printChars
        ("R".data ++ intChars (pRed.tdiv 100) ++ " G".data ++ intChars (pGreen.tdiv 100)
          ++ " B".data ++ intChars (pBlue.tdiv 100) ++ "  ".data) := by
  unfold renderLine1
  simp only [if_neg hm, Lcd.printInt, Lcd.printChars, List.foldl_append]

theorem loop_lcd {F : Type} (fp : FloatOps F) (i : LoopInput) (s : State)
    (hdue : refreshDue i.currentMillis s = true) :
    (loop fp i s).lcd =
      renderLine1 s.systemMode (loop fp i s).ledRed.period (loop fp i s).ledGreen.period
        (loop fp i s).ledBlue.period (renderLine0 s.systemMode s.lcd) := by
  obtain ⟨hmode, hlast, hdisp, hlcd, -, -, -⟩ := loop_before_refresh fp i s
  have hdue2 : refreshDue i.currentMillis
      (updateLeds fp i.currentMillis (assignPeriods i (heartbeat i.currentMillis (flush s))))
      = true := by
    unfold refreshDue at hdue ⊢
    rw [hmode, hlast, hdisp]
    exact hdue
  unfold loop
  simp only [refreshDisplay, if_pos hdue2, BreathingLED.getPeriod, hmode, hlcd]

/-- C9 as amended: in mode 0 with raw readings (512, 256, 1000) a `loop`
iteration that refreshes the display leaves the periods (2752, 1626, 4898) and
prints the three period fields as 27, 16 and 48: the second display line then
starts with `R27 G16 B48` followed by two blanks. -/
theorem example_scenario {F : Type} (fp : FloatOps F) (i : LoopInput) (s : State)
    (hmode : s.systemMode = 0)
    (hraw : i.valRed = 512 ∧ i.valGreen = 256 ∧ i.valBlue = 1000)
    (hdue : refreshDue i.currentMillis s = true)
    (hlcd : s.lcd.line1.length = LCD_DDRAM_COLS) :
    periods (loop fp i s) = (2752, 1626, 4898) ∧
    periodFields (loop fp i s) = (27, 16, 48) ∧
    (loop fp i s).lcd.line1.take 13 = "R27 G16 B48  ".data := by
  obtain ⟨h512, h256, h1000⟩ := hraw
  have hper : periods (loop fp i s) = (2752, 1626, 4898) := by
    rw [loop_periods, hmode, h512, h256, h1000]
    decide
  have hR : (loop fp i s).ledRed.period = 2752 := congrArg Prod.fst hper
  have hG : (loop fp i s).ledGreen.period = 1626 := congrArg (fun p => p.2.1) hper
  have hB : (loop fp i s).ledBlue.period = 4898 := congrArg (fun p => p.2.2) hper
  refine ⟨hper, ?_, ?_⟩
  · unfold periodFields BreathingLED.getPeriod
    rw [hR, hG, hB]
    decide
  · rw [loop_lcd fp i s hdue, hR, hG, hB, hmode, renderLine1_fields _ _ _ _ _ (by decide)]
    have htext : "R".data ++ intChars ((2752 : Int).tdiv 100) ++ " G".data
        ++ intChars ((1626 : Int).tdiv 100) ++ " B".data ++ intChars ((4898 : Int).tdiv 100)
        ++ "  ".data = "R27 G16 B48  ".data := by decide
    rw [htext]
    have hw := printChars_row1 "R27 G16 B48  ".data ((renderLine0 0 s.lcd).setCursor 0 1) []
      s.lcd.line1 (by simp [Lcd.setCursor]) (by simp [Lcd.setCursor, renderLine0_line1]) rfl
      (by rw [hlcd]; decide)
    rw [hw.1]
    simp

/-- C9 as amended, at the state right after boot with the clock at 300 ms. -/
theorem example_scenario_witness :
    periods (loop sampleOps ⟨300, 512, 256, 1000⟩ (boot ⟨0, 0⟩)) = (2752, 1626, 4898) ∧
    periodFields (loop sampleOps ⟨300, 512, 256, 1000⟩ (boot ⟨0, 0⟩)) = (27, 16, 48) ∧
    (loop sampleOps ⟨300, 512, 256, 1000⟩ (boot ⟨0, 0⟩)).lcd.line1.take 13
      = "R27 G16 B48  ".data :=
  example_scenario sampleOps ⟨300, 512, 256, 1000⟩ (boot ⟨0, 0⟩) (by decide)
    ⟨rfl, rfl, rfl⟩ (by decide) (by decide)

/-- C9 as written fails: after boot in mode 0, the iteration with raw readings
(512, 256, 1000) refreshes the display and the blue field is 48, not 50; the
visible second line reads `R27 G16 B48`. -/
theorem example_scenario_blue_not_50 :
    (boot ⟨0, 0⟩).systemMode = 0 ∧
    refreshDue 300 (boot ⟨0, 0⟩) = true ∧
    periodFields (loop sampleOps ⟨300, 512, 256, 1000⟩ (boot ⟨0, 0⟩)) ≠ (27, 16, 50) ∧
    visible (loop sampleOps ⟨300, 512, 256, 1000⟩ (boot ⟨0, 0⟩)).lcd.line1
      = "R27 G16 B48     ".data := by
  decide

/-! ## Synchronized mode -/

/-- C10: when `systemMode` is 2, after the `loop` iteration all three channels
hold the mapping of the red reading, whatever the green and blue readings are
(500 when the red reading is 0); in every other mode, in particular 0 and 1,
each channel holds the mapping of its own reading. -/
theorem synchronized_mode {F : Type} (fp : FloatOps F) (i : LoopInput) (s : State)
    (g b : Int) :
    (s.systemMode = 2 →
      periods (loop fp i s)
        = (map i.valRed 0 1023 500 5000, map i.valRed 0 1023 500 5000,
            map i.valRed 0 1023 500 5000) ∧
      periods (loop fp { i with valGreen := g, valBlue := b } s) = periods (loop fp i s) ∧
      (i.valRed = 0 → periods (loop fp i s) = (500, 500, 500))) ∧
    (s.systemMode ≠ 2 →
      periods (loop fp i s)
        = (map i.valRed 0 1023 500 5000, map i.valGreen 0 1023 500 5000,
            map i.valBlue 0 1023 500 5000)) := by
  constructor
  · intro h2
    refine ⟨?_, ?_, ?_⟩
    · rw [loop_periods, if_pos h2]
    · rw [loop_periods, loop_periods, if_pos h2, if_pos h2]
    · intro h0
      rw [loop_periods, if_pos h2, h0]
      decide
  · intro h2
    rw [loop_periods, if_neg h2]

/-- C10 at concrete readings: mode 2 with red reading 0, and mode 0. -/
theorem synchronized_mode_witness :
    periods (loop sampleOps ⟨300, 0, 700, 1023⟩ (boot ⟨2, 0⟩)) = (500, 500, 500) ∧
    periods (loop sampleOps ⟨300, 0, 700, 1023⟩ (boot ⟨0, 0⟩))
      = (map 0 0 1023 500 5000, map 700 0 1023 500 5000, map 1023 0 1023 500 5000) :=
  ⟨((synchronized_mode sampleOps ⟨300, 0, 700, 1023⟩ (boot ⟨2, 0⟩) 0 0).1 (by decide)).2.2 rfl,
   (synchronized_mode sampleOps ⟨300, 0, 700, 1023⟩ (boot ⟨0, 0⟩) 0 0).2 (by decide)⟩

/-! ## Stale characters on the display -/

/-- C11 fails on the code: booted in mode 2, an iteration with red reading 569
shows `Speed: 3002 ms`; after an accepted press (mode 0) the next iteration
prints 13 characters on the second line, and the `s` of the earlier refresh
stays visible in column 13. -/
theorem display_stale_character :
    visible (run sampleOps (boot ⟨2, 0⟩) [.iteration ⟨300, 569, 0, 0⟩]).lcd.line1
      = "Speed: 3002 ms  ".data ∧
    (run sampleOps (boot ⟨2, 0⟩)
      [.iteration ⟨300, 569, 0, 0⟩, .press 500, .iteration ⟨600, 512, 256, 1000⟩]).systemMode
      = 0 ∧
    visible (run sampleOps (boot ⟨2, 0⟩)
      [.iteration ⟨300, 569, 0, 0⟩, .press 500, .iteration ⟨600, 512, 256, 1000⟩]).lcd.line1
      = "R27 G16 B48  s  ".data := by
  decide

/-! ## A press in the middle of a flush -/

theorem loop_eq_tail_flush {F : Type} (fp : FloatOps F) (i : LoopInput) (s : State) :
    loop fp i s = loopTail fp i (flush s) := rfl

theorem loopTail_frame {F : Type} (fp : FloatOps F) (i : LoopInput) (s : State) :
    (loopTail fp i s).systemMode = s.systemMode ∧ (loopTail fp i s).eeprom = s.eeprom ∧
    (loopTail fp i s).saveToEepromPending = s.saveToEepromPending ∧
    (loopTail fp i s).lastDebounceTime = s.lastDebounceTime := by
  unfold loopTail
  simp only [(refreshDisplay_frame _ _).1, (updateLeds_frame fp _ _).1,
    (assignPeriods_frame _ _).1, (heartbeat_frame _ _).1,
    (refreshDisplay_frame _ _).2.1, (updateLeds_frame fp _ _).2.1,
    (assignPeriods_frame _ _).2.1, (heartbeat_frame _ _).2.1,
    (refreshDisplay_frame _ _).2.2.1, (updateLeds_frame fp _ _).2.2.1,
    (assignPeriods_frame _ _).2.2.1, (heartbeat_frame _ _).2.2.1,
    (refreshDisplay_frame _ _).2.2.2.1, (updateLeds_frame fp _ _).2.2.2.1,
    (assignPeriods_frame _ _).2.2.2.1, (heartbeat_frame _ _).2.2.2.1]
  exact ⟨trivial, trivial, trivial, trivial⟩

theorem flushStore_read (s : State) (hm : 0 ≤ s.systemMode ∧ s.systemMode < 3) :
    ((flushStore s).eeprom.read : Int) = s.systemMode := by
  simp only [flushStore]
  rw [update_read]
  have h8 := toUint8_of_byte s.systemMode ⟨hm.1, by omega⟩
  omega

theorem flush_read_of_pending (s : State) (hm : 0 ≤ s.systemMode ∧ s.systemMode < 3)
    (hp : s.saveToEepromPending = true) :
    ((flush s).eeprom.read : Int) = s.systemMode := by
  unfold flush
  rw [if_pos hp]
  exact flushStore_read (flushClear s) hm

/-- C13: when an accepted press runs between the clear and the store of a
flush, `saveToEepromPending` is true when that flush finishes and stays true to
the end of the iteration; the flush of the next iteration (no further press)
leaves the stored byte equal to `systemMode` and the flag false. -/
theorem no_lost_request {F : Type} (fp : FloatOps F) (i j : LoopInput) (s : State) (t : Nat)
    (hm : 0 ≤ s.systemMode ∧ s.systemMode < 3)
    (hacc : subU32 t s.lastDebounceTime > DEBOUNCE_DELAY) :
    flushWithPress t s = flushStore (handleButtonPress t (flushClear s)) ∧
    (flushWithPress t s).saveToEepromPending = true ∧
    (loopTail fp i (flushWithPress t s)).saveToEepromPending = true ∧
    ((flush (loopTail fp i (flushWithPress t s))).eeprom.read : Int)
      = (flush (loopTail fp i (flushWithPress t s))).systemMode ∧
    (flush (loopTail fp i (flushWithPress t s))).saveToEepromPending = false ∧
    ((loop fp j (loopTail fp i (flushWithPress t s))).eeprom.read : Int)
      = (loop fp j (loopTail fp i (flushWithPress t s))).systemMode ∧
    (loop fp j (loopTail fp i (flushWithPress t s))).saveToEepromPending = false := by
  have hacc1 : subU32 t (flushClear s).lastDebounceTime > DEBOUNCE_DELAY := hacc
  have hrange := handleButtonPress_mode_range t (flushClear s) hm
  have hp1 : (flushWithPress t s).saveToEepromPending = true := by
    unfold flushWithPress
    rw [handleButtonPress_accept t (flushClear s) hacc1]
    rfl
  have hmode1 : (flushWithPress t s).systemMode
      = (handleButtonPress t (flushClear s)).systemMode := rfl
  have hp2 : (loopTail fp i (flushWithPress t s)).saveToEepromPending = true := by
    rw [(loopTail_frame fp i _).2.2.1, hp1]
  have hmode2 : (loopTail fp i (flushWithPress t s)).systemMode
      = (handleButtonPress t (flushClear s)).systemMode := by
    rw [(loopTail_frame fp i _).1, hmode1]
  have hread := flush_read_of_pending (loopTail fp i (flushWithPress t s))
    (by rw [hmode2]; exact hrange) hp2
  refine ⟨rfl, hp1, hp2, ?_, flush_pending _, ?_, loop_pending fp j _⟩
  · rw [hread, flush_systemMode]
  · rw [loop_eeprom, hread, loop_systemMode]

/-- C13 at a concrete state: mode 0, store 0, flag set, press at 500 ms. -/
theorem no_lost_request_witness :
    (flushWithPress 500 { boot ⟨0, 0⟩ with saveToEepromPending := true }).saveToEepromPending
      = true ∧
    (flush (loopTail sampleOps ⟨500, 0, 0, 0⟩
      (flushWithPress 500 { boot ⟨0, 0⟩ with saveToEepromPending := true }))).saveToEepromPending
      = false := by
  have h := no_lost_request sampleOps ⟨500, 0, 0, 0⟩ ⟨800, 0, 0, 0⟩
    { boot ⟨0, 0⟩ with saveToEepromPending := true } 500 (by decide) (by decide)
  exact ⟨h.2.1, h.2.2.2.2.1⟩

/-! ## Heartbeat -/

theorem loop_heartbeat_fields {F : Type} (fp : FloatOps F) (i : LoopInput) (s : State) :
    (loop fp i s).portB = (heartbeat i.currentMillis s).portB ∧
    (loop fp i s).lastHeartbeat = (heartbeat i.currentMillis s).lastHeartbeat := by
  by_cases hp : s.saveToEepromPending = true <;>
  by_cases hh : subU32 i.currentMillis s.lastHeartbeat ≥ HEARTBEAT_INTERVAL <;>
  by_cases hm : s.systemMode = 2 <;>
  by_cases hd : refreshDue i.currentMillis s = true <;>
  simp [loop, refreshDisplay, refreshDue, updateLeds, assignPeriods, heartbeat, flush,
    flushStore, flushClear, BreathingLED.setPeriod, hp, hh, hm] <;>
  split <;> simp

theorem testBit_xor_32 (n k : Nat) :
    (n ^^^ 32).testBit k = if k = 5 then !n.testBit 5 else n.testBit k := by
  have h32 : (32 : Nat) = 2 ^ 5 := by norm_num
  rw [Nat.testBit_xor, h32, Nat.testBit_two_pow]
  by_cases hk : k = 5
  · subst hk; simp
  · have : ¬ 5 = k := fun h => hk h.symm
    simp [hk, this]

theorem subU32_eq (a b : Nat) (ha : a < 2 ^ 32) (hb : b < 2 ^ 32) :
    subU32 a b = (a + 2 ^ 32 - b) % 2 ^ 32 := by
  unfold subU32 U32
  omega

/-- C16: with both time stamps on the 32-bit clock, a `loop` iteration toggles
bit 5 of `PORTB` and sets `lastHeartbeat` to the current time exactly when
`(current - lastHeartbeat) mod 2 ^ 32 ≥ 1000`; otherwise both are unchanged; no
other bit of `PORTB` changes in either case. -/
theorem heartbeat_gating {F : Type} (fp : FloatOps F) (i : LoopInput) (s : State) (k : Nat)
    (hnow : i.currentMillis < 2 ^ 32) (hlast : s.lastHeartbeat < 2 ^ 32) :
    (1000 ≤ (i.currentMillis + 2 ^ 32 - s.lastHeartbeat) % 2 ^ 32 ↔
      ((loop fp i s).portB.testBit 5 = !s.portB.testBit 5 ∧
       (loop fp i s).lastHeartbeat = i.currentMillis)) ∧
    (1000 ≤ (i.currentMillis + 2 ^ 32 - s.lastHeartbeat) % 2 ^ 32 →
      (loop fp i s).portB = s.portB ^^^ (1 <<< 5)) ∧
    (¬ 1000 ≤ (i.currentMillis + 2 ^ 32 - s.lastHeartbeat) % 2 ^ 32 →
      (loop fp i s).portB = s.portB ∧ (loop fp i s).lastHeartbeat = s.lastHeartbeat) ∧
    (k ≠ 5 → (loop fp i s).portB.testBit k = s.portB.testBit k) := by
  obtain ⟨hport, hbeat⟩ := loop_heartbeat_fields fp i s
  have hsub := subU32_eq i.currentMillis s.lastHeartbeat hnow hlast
  have hshift : (1 <<< 5 : Nat) = 32 := by decide
  have hyes : 1000 ≤ (i.currentMillis + 2 ^ 32 - s.lastHeartbeat) % 2 ^ 32 →
      heartbeat i.currentMillis s
        = { s with lastHeartbeat := i.currentMillis, portB := s.portB ^^^ (1 <<< 5) } := by
    intro h
    unfold heartbeat
    rw [if_pos (by rw [hsub]; exact h)]
  have hno : ¬ 1000 ≤ (i.currentMillis + 2 ^ 32 - s.lastHeartbeat) % 2 ^ 32 →
      heartbeat i.currentMillis s = s := by
    intro h
    unfold heartbeat
    rw [if_neg (by rw [hsub]; exact h)]
  refine ⟨⟨?_, ?_⟩, ?_, ?_, ?_⟩
  · intro h
    rw [hport, hbeat, hyes h]
    simp only [hshift, testBit_xor_32]
    simp
  · rintro ⟨hbit, -⟩
    by_contra h
    rw [hport, hno h] at hbit
    cases hb : s.portB.testBit 5 <;> simp [hb] at hbit
  · intro h
    rw [hport, hyes h]
  · intro h
    rw [hport, hbeat, hno h]
    exact ⟨rfl, rfl⟩
  · intro hk
    rw [hport]
    by_cases h : 1000 ≤ (i.currentMillis + 2 ^ 32 - s.lastHeartbeat) % 2 ^ 32
    · rw [hyes h]
      simp only [hshift, testBit_xor_32, if_neg hk]
    · rw [hno h]

/-- C16 across a wrap of the clock: last toggle 500 ms before the wrap, current
time 600 ms after it. -/
theorem heartbeat_gating_witness :
    (loop sampleOps ⟨600, 0, 0, 0⟩ { boot ⟨0, 0⟩ with lastHeartbeat := 4294966796 }).portB
      = 0 ^^^ (1 <<< 5) :=
  (heartbeat_gating sampleOps ⟨600, 0, 0, 0⟩ { boot ⟨0, 0⟩ with lastHeartbeat := 4294966796 } 0
    (by decide) (by decide)).2.1 (by decide)

/-! ## First edge after boot -/

theorem handleButtonPress_effects_iff (t : Nat) (s : State) :
    subU32 t s.lastDebounceTime > DEBOUNCE_DELAY ↔
      ((handleButtonPress t s).systemMode
          = (if s.systemMode + 1 ≥ 3 then 0 else s.systemMode + 1) ∧
       (handleButtonPress t s).saveToEepromPending = true ∧
       (handleButtonPress t s).lastDebounceTime = t) := by
  constructor
  · intro h
    rw [handleButtonPress_accept t s h]
    simp [MAX_MODES]
  · rintro ⟨hmode, -, -⟩
    by_contra h
    rw [handleButtonPress_reject t s h] at hmode
    split at hmode <;> omega

theorem subU32_zero (t : Nat) (ht : t < 2 ^ 32) : subU32 t 0 = t := by
  unfold subU32 U32
  omega

theorem boot_lastDebounceTime (e : Eeprom) : (boot e).lastDebounceTime = 0 := by
  unfold boot setup
  simp only [MAX_MODES]
  split <;> rfl

/-- C18: from a state in which no edge was accepted yet (`lastDebounceTime = 0`,
as after boot) the first edge at clock time `t` is accepted exactly when
`t > 200`; an edge at `t ≤ 200` leaves the state unchanged, so a following edge
at `t2` is accepted exactly when `t2 > 200`, however close it is to the first. -/
theorem first_edge_after_boot (e : Eeprom) (s : State) (t t2 : Nat)
    (h0 : s.lastDebounceTime = 0) (ht : t < 2 ^ 32) (ht2 : t2 < 2 ^ 32) :
    (boot e).lastDebounceTime = 0 ∧
    (200 < t ↔
      ((handleButtonPress t s).systemMode
          = (if s.systemMode + 1 ≥ 3 then 0 else s.systemMode + 1) ∧
       (handleButtonPress t s).saveToEepromPending = true ∧
       (handleButtonPress t s).lastDebounceTime = t)) ∧
    (t ≤ 200 → handleButtonPress t s = s) ∧
    (t ≤ 200 →
      (200 < t2 ↔
        ((handleButtonPress t2 (handleButtonPress t s)).systemMode
            = (if s.systemMode + 1 ≥ 3 then 0 else s.systemMode + 1) ∧
         (handleButtonPress t2 (handleButtonPress t s)).saveToEepromPending = true ∧
         (handleButtonPress t2 (handleButtonPress t s)).lastDebounceTime = t2))) := by
  have hiff : ∀ u : Nat, u < 2 ^ 32 →
      (200 < u ↔ subU32 u s.lastDebounceTime > DEBOUNCE_DELAY) := by
    intro u hu
    rw [h0, subU32_zero u hu]
    rfl
  have hrej : t ≤ 200 → handleButtonPress t s = s := by
    intro h
    apply handleButtonPress_reject
    rw [← hiff t ht]
    omega
  refine ⟨boot_lastDebounceTime e, ?_, hrej, ?_⟩
  · rw [hiff t ht]
    exact handleButtonPress_effects_iff t s
  · intro h
    rw [hrej h, hiff t2 ht2]
    exact handleButtonPress_effects_iff t2 s

/-- C18 at boot: an edge at 150 ms is ignored and the edge at 201 ms, 51 ms
later, is accepted. -/
theorem first_edge_after_boot_witness :
    handleButtonPress 150 (boot ⟨0, 0⟩) = boot ⟨0, 0⟩ ∧
    (handleButtonPress 201 (handleButtonPress 150 (boot ⟨0, 0⟩))).systemMode = 1 := by
  have h := first_edge_after_boot ⟨0, 0⟩ (boot ⟨0, 0⟩) 150 201 (by decide) (by decide)
    (by decide)
  exact ⟨h.2.2.1 (by decide), ((h.2.2.2 (by decide)).1 (by decide)).1⟩

/-! ## Store and mode under interleaving -/

theorem microRun_iteration {F : Type} (fp : FloatOps F) (i : LoopInput) (s : State) :
    microRun fp ⟨s, Phase.top⟩
        (if s.saveToEepromPending then [Micro.advance i, Micro.advance i, Micro.advance i]
         else [Micro.advance i, Micro.advance i])
      = ⟨loop fp i s, Phase.top⟩ := by
  rw [loop_eq_tail_flush]
  by_cases hp : s.saveToEepromPending = true
  · simp [microRun, microStep, flush, hp]
  · have hf : s.saveToEepromPending = false := by simpa using hp
    simp [microRun, microStep, flush, hf]

theorem boot_storeInv (e : Eeprom) (he : e.read < 3) : storeInv ⟨boot e, Phase.top⟩ := by
  refine ⟨boot_mode_range e, fun _ _ => ?_⟩
  have hmode : (boot e).systemMode = (e.read : Int) := by
    unfold boot
    rw [setup_systemMode (powerOn e)]
    have : (powerOn e).eeprom = e := rfl
    rw [this, if_pos ⟨by omega, by omega⟩]
  have hstore : (boot e).eeprom = e := by
    unfold boot setup
    simp only [MAX_MODES]
    split <;> rfl
  simp only [hmode, hstore]

theorem microStep_storeInv {F : Type} (fp : FloatOps F) (m : Machine) (ev : Micro)
    (h : storeInv m) : storeInv (microStep fp m ev) := by
  obtain ⟨hrange, hstore⟩ := h
  cases ev with
  | press t =>
    refine ⟨handleButtonPress_mode_range t m.s hrange, ?_⟩
    intro hphase hpend
    by_cases hacc : subU32 t m.s.lastDebounceTime > DEBOUNCE_DELAY
    · have : (handleButtonPress t m.s).saveToEepromPending = true := by
        rw [handleButtonPress_accept t m.s hacc]
      simp only [microStep] at hpend
      rw [this] at hpend
      exact absurd hpend (by decide)
    · simp only [microStep] at hpend hphase ⊢
      rw [handleButtonPress_reject t m.s hacc] at hpend ⊢
      exact hstore hphase hpend
  | advance i =>
    cases hph : m.phase with
    | top =>
      by_cases hp : m.s.saveToEepromPending = true
      · simp only [microStep, hph, hp, if_true]
        exact ⟨hrange, fun hne => absurd rfl hne⟩
      · simp only [microStep, hph, hp]
        refine ⟨hrange, fun _ hpend => hstore ?_ hpend⟩
        rw [hph]
        decide
    | cleared =>
      simp only [microStep, hph]
      exact ⟨hrange, fun _ _ => flushStore_read m.s hrange⟩
    | body =>
      simp only [microStep, hph]
      refine ⟨?_, ?_⟩
      · rw [(loopTail_frame fp i m.s).1]
        exact hrange
      · intro _ hpend
        rw [(loopTail_frame fp i m.s).2.2.1] at hpend
        rw [(loopTail_frame fp i m.s).1, (loopTail_frame fp i m.s).2.1]
        apply hstore _ hpend
        rw [hph]
        decide

theorem microRun_storeInv {F : Type} (fp : FloatOps F) (m : Machine) (es : List Micro)
    (h : storeInv m) : storeInv (microRun fp m es) := by
  induction es generalizing m with
  | nil => exact h
  | cons ev es ih => exact ih (microStep fp m ev) (microStep_storeInv fp m ev h)

/-- C17: started by `setup` on a stored byte in `{0, 1, 2}`, after any
interleaving of handler calls and steps of `loop` (the handler may run between
the clear and the store of a flush): whenever `saveToEepromPending` is false
and no flush is part-way through, the stored byte equals `systemMode`. -/
theorem store_mode_consistency {F : Type} (fp : FloatOps F) (e : Eeprom) (es : List Micro)
    (he : e.read < 3)
    (hphase : (microRun fp ⟨boot e, Phase.top⟩ es).phase ≠ Phase.cleared)
    (hpend : (microRun fp ⟨boot e, Phase.top⟩ es).s.saveToEepromPending = false) :
    ((microRun fp ⟨boot e, Phase.top⟩ es).s.eeprom.read : Int)
      = (microRun fp ⟨boot e, Phase.top⟩ es).s.systemMode :=
  (microRun_storeInv fp ⟨boot e, Phase.top⟩ es (boot_storeInv e he)).2 hphase hpend

/-- C17 on a run in which a second press lands between the clear and the store
of the flush that serves the first one. -/
theorem store_mode_consistency_witness :
    ((microRun sampleOps ⟨boot ⟨1, 0⟩, Phase.top⟩
        [Micro.press 500, Micro.advance ⟨600, 0, 0, 0⟩, Micro.press 900,
         Micro.advance ⟨600, 0, 0, 0⟩, Micro.advance ⟨600, 0, 0, 0⟩,
         Micro.advance ⟨950, 0, 0, 0⟩, Micro.advance ⟨950, 0, 0, 0⟩]).s.eeprom.read : Int)
      = (microRun sampleOps ⟨boot ⟨1, 0⟩, Phase.top⟩
        [Micro.press 500, Micro.advance ⟨600, 0, 0, 0⟩, Micro.press 900,
         Micro.advance ⟨600, 0, 0, 0⟩, Micro.advance ⟨600, 0, 0, 0⟩,
         Micro.advance ⟨950, 0, 0, 0⟩, Micro.advance ⟨950, 0, 0, 0⟩]).s.systemMode :=
  store_mode_consistency sampleOps ⟨1, 0⟩ _ (by decide) (by decide) (by decide)

/-! ## The first display line -/

theorem printChars_append (a b : List Char) (l : Lcd) :
    (l.printChars a).printChars b = l.printChars (a ++ b) := by
  simp only [Lcd.printChars, List.foldl_append]

theorem printChars_row0_at (cs : List Char) :
    ∀ (l : Lcd) (pre rest : List Char), l.row = 0 → l.line0 = pre ++ rest →
      l.col = pre.length → cs.length ≤ rest.length →
      (l.printChars cs).line0 = pre ++ cs ++ rest.drop cs.length := by
  induction cs with
  | nil =>
    intro l pre rest _ hline _ _
    simp [Lcd.printChars, hline]
  | cons c cs ih =>
    intro l pre rest hrow hline hcol hlen
    cases rest with
    | nil => simp at hlen
    | cons r rest =>
      have hput : l.putChar c
          = { l with line0 := pre ++ c :: rest, col := l.col + 1 } := by
        unfold Lcd.putChar
        rw [if_pos hrow, hline, hcol, set_at_length]
      have hstep := ih (l.putChar c) (pre ++ [c]) rest (by rw [hput]; exact hrow)
        (by rw [hput]; simp) (by rw [hput]; simp [hcol])
        (by simpa using hlen)
      simp only [Lcd.printChars, List.foldl_cons] at hstep ⊢
      rw [hstep]
      simp

theorem printChars_row1_line0 (cs : List Char) :
    ∀ (l : Lcd), l.row ≠ 0 → (l.printChars cs).line0 = l.line0 := by
  induction cs with
  | nil => intro l _; rfl
  | cons c cs ih =>
    intro l hrow
    have hput : l.putChar c
        = { l with line1 := l.line1.set l.col c, col := l.col + 1 } := by
      unfold Lcd.putChar
      rw [if_neg hrow]
    have hstep := ih (l.putChar c) (by rw [hput]; exact hrow)
    simp only [Lcd.printChars, List.foldl_cons] at hstep ⊢
    rw [hstep, hput]

theorem renderLine1_line0 (m pRed pGreen pBlue : Int) (l : Lcd) :
    (renderLine1 m pRed pGreen pBlue l).line0 = l.line0 := by
  have hrow : (l.setCursor 0 1).row ≠ 0 := by simp [Lcd.setCursor]
  unfold renderLine1
  simp only [Lcd.printInt, printChars_append]
  split
  · rw [printChars_row1_line0 _ _ hrow]; rfl
  · rw [printChars_row1_line0 _ _ hrow]; rfl

theorem renderLine0_shown (m : Int) (l : Lcd) (hm : 0 ≤ m ∧ m < 3)
    (hlen : l.line0.length = LCD_DDRAM_COLS) :
    (renderLine0 m l).line0.length = LCD_DDRAM_COLS ∧
    visible (renderLine0 m l).line0 = modeShown m := by
  have hfit : ∀ cs : List Char, cs.length = 17 →
      ((l.setCursor 0 0).printChars cs).line0 = cs ++ l.line0.drop 17 := by
    intro cs hcs
    have h := printChars_row0_at cs (l.setCursor 0 0) [] l.line0 rfl rfl rfl
      (by rw [hlen, hcs]; decide)
    rw [h, hcs]
    rfl
  have hvis : ∀ cs : List Char, cs.length = 17 →
      (cs ++ l.line0.drop 17).length = LCD_DDRAM_COLS ∧
      visible (cs ++ l.line0.drop 17) = cs.take 16 := by
    intro cs hcs
    constructor
    · simp [hcs, hlen, LCD_DDRAM_COLS]
    · unfold visible LCD_COLS
      rw [List.take_append_of_le_length (by omega)]
  have hcases : m = 0 ∨ m = 1 ∨ m = 2 := by omega
  rcases hcases with h | h | h
  · subst h
    have hr : renderLine0 0 l = (l.setCursor 0 0).printChars "Mode: Sine Indep ".data := by
      simp only [renderLine0, if_true, printChars_append]
      rfl
    rw [hr, hfit _ (by decide)]
    refine ⟨(hvis _ (by decide)).1, ?_⟩
    rw [(hvis _ (by decide)).2]
    decide
  · subst h
    have hr : renderLine0 1 l = (l.setCursor 0 0).printChars "Mode: Triang Ind ".data := by
      simp only [renderLine0, printChars_append]
      rfl
    rw [hr, hfit _ (by decide)]
    refine ⟨(hvis _ (by decide)).1, ?_⟩
    rw [(hvis _ (by decide)).2]
    decide
  · subst h
    have hr : renderLine0 2 l = (l.setCursor 0 0).printChars "Mode: Sine Sync  ".data := by
      simp only [renderLine0, printChars_append]
      rfl
    rw [hr, hfit _ (by decide)]
    refine ⟨(hvis _ (by decide)).1, ?_⟩
    rw [(hvis _ (by decide)).2]
    decide

theorem loop_display_fields {F : Type} (fp : FloatOps F) (i : LoopInput) (s : State) :
    (refreshDue i.currentMillis s = true →
      (loop fp i s).lastLcdUpdate = i.currentMillis ∧
      (loop fp i s).displayedMode = s.systemMode) ∧
    (¬ refreshDue i.currentMillis s = true →
      (loop fp i s).lastLcdUpdate = s.lastLcdUpdate ∧
      (loop fp i s).displayedMode = s.displayedMode ∧
      (loop fp i s).lcd = s.lcd) := by
  obtain ⟨hmode, hlast, hdisp, hlcd, -, -, -⟩ := loop_before_refresh fp i s
  have hdue : refreshDue i.currentMillis
      (updateLeds fp i.currentMillis (assignPeriods i (heartbeat i.currentMillis (flush s))))
      = refreshDue i.currentMillis s := by
    unfold refreshDue
    rw [hmode, hlast, hdisp]
  constructor
  · intro h
    unfold loop
    simp only [refreshDisplay, hdue, h, if_true, hmode]
    exact ⟨trivial, trivial⟩
  · intro h
    have hf : refreshDue i.currentMillis s = false := by simpa using h
    have hskip : loop fp i s
        = updateLeds fp i.currentMillis
            (assignPeriods i (heartbeat i.currentMillis (flush s))) := by
      unfold loop
      simp only [refreshDisplay, hdue, hf, Bool.false_eq_true, if_false]
    rw [hskip]
    exact ⟨hlast, hdisp, hlcd⟩

theorem handleButtonPress_display (t : Nat) (s : State) :
    (handleButtonPress t s).lcd = s.lcd ∧
    (handleButtonPress t s).displayedMode = s.displayedMode := by
  unfold handleButtonPress
  split
  · simp only [MAX_MODES]
    split <;> simp
  · simp

theorem boot_displayInv (e : Eeprom) : displayInv (boot e) := by
  have hlcd : (boot e).lcd = Lcd.init := rfl
  have hdisp : (boot e).displayedMode = -1 := by
    unfold boot setup
    simp only [MAX_MODES]
    split <;> rfl
  refine ⟨?_, Or.inl hdisp⟩
  rw [hlcd]
  decide

theorem loop_shows_mode {F : Type} (fp : FloatOps F) (i : LoopInput) (s : State)
    (hinv : displayInv s) (hm : 0 ≤ s.systemMode ∧ s.systemMode < 3) :
    (loop fp i s).displayedMode = (loop fp i s).systemMode ∧
    visible (loop fp i s).lcd.line0 = modeShown (loop fp i s).systemMode ∧
    displayInv (loop fp i s) := by
  obtain ⟨hlen, hshown⟩ := hinv
  rw [loop_systemMode]
  by_cases hdue : refreshDue i.currentMillis s = true
  · have hd := ((loop_display_fields fp i s).1 hdue).2
    have hline : (loop fp i s).lcd.line0 = (renderLine0 s.systemMode s.lcd).line0 := by
      rw [loop_lcd fp i s hdue, renderLine1_line0]
    obtain ⟨hlen', hvis⟩ := renderLine0_shown s.systemMode s.lcd hm hlen
    have hv : visible (loop fp i s).lcd.line0 = modeShown s.systemMode := by
      rw [hline, hvis]
    refine ⟨hd, hv, ?_, Or.inr ⟨?_, ?_⟩⟩
    · rw [hline, hlen']
    · rw [hd]; exact hm
    · rw [hd]; exact hv
  · obtain ⟨-, hd, hl⟩ := (loop_display_fields fp i s).2 hdue
    have hsame : s.displayedMode = s.systemMode := by
      unfold refreshDue at hdue
      simp only [Bool.or_eq_true, decide_eq_true_eq, not_or, ne_eq, not_not] at hdue
      exact hdue.2
    have hv : visible s.lcd.line0 = modeShown s.systemMode := by
      rcases hshown with h | h
      · rw [hsame] at h
        omega
      · rw [← hsame]
        exact h.2
    refine ⟨?_, ?_, ?_, Or.inr ⟨?_, ?_⟩⟩
    · rw [hd, hsame]
    · rw [hl]; exact hv
    · rw [hl]; exact hlen
    · rw [hd, hsame]; exact hm
    · rw [hd, hl, hsame]; exact hv

theorem run_displayInv {F : Type} (fp : FloatOps F) (s : State) (es : List Event)
    (hinv : displayInv s) (hm : 0 ≤ s.systemMode ∧ s.systemMode < 3) :
    displayInv (run fp s es) := by
  induction es generalizing s with
  | nil => exact hinv
  | cons ev es ih =>
    apply ih (step fp s ev) _ (step_mode_range fp s ev hm)
    cases ev with
    | press t =>
      unfold displayInv at hinv ⊢
      simp only [step]
      rw [(handleButtonPress_display t s).1, (handleButtonPress_display t s).2]
      exact hinv
    | iteration i => exact (loop_shows_mode fp i s hinv hm).2.2

/-- C15: at the end of every `loop` iteration of a run started by `setup`
(the first one included) `displayedMode` equals `systemMode` and the visible
first line reads `Mode: ` followed by the name of the current mode; and in any
state an iteration refreshes the display exactly when at least 300 ms (modulo
`2 ^ 32`) have passed since `lastLcdUpdate` or `displayedMode` differs from
`systemMode`. -/
theorem display_tracks_mode {F : Type} (fp : FloatOps F) (e : Eeprom) (es : List Event)
    (i : LoopInput) (s : State)
    (hnow : i.currentMillis < 2 ^ 32) (hlast : s.lastLcdUpdate < 2 ^ 32) :
    (loop fp i (run fp (boot e) es)).displayedMode
      = (loop fp i (run fp (boot e) es)).systemMode ∧
    visible (loop fp i (run fp (boot e) es)).lcd.line0
      = modeShown (loop fp i (run fp (boot e) es)).systemMode ∧
    ((300 ≤ (i.currentMillis + 2 ^ 32 - s.lastLcdUpdate) % 2 ^ 32 ∨
        s.displayedMode ≠ s.systemMode) →
      (loop fp i s).lastLcdUpdate = i.currentMillis ∧
      (loop fp i s).displayedMode = s.systemMode ∧
      (loop fp i s).lcd =
        renderLine1 s.systemMode (loop fp i s).ledRed.period (loop fp i s).ledGreen.period
          (loop fp i s).ledBlue.period (renderLine0 s.systemMode s.lcd)) ∧
    (¬ (300 ≤ (i.currentMillis + 2 ^ 32 - s.lastLcdUpdate) % 2 ^ 32 ∨
        s.displayedMode ≠ s.systemMode) →
      (loop fp i s).lastLcdUpdate = s.lastLcdUpdate ∧
      (loop fp i s).displayedMode = s.displayedMode ∧
      (loop fp i s).lcd = s.lcd) := by
  have hsub := subU32_eq i.currentMillis s.lastLcdUpdate hnow hlast
  have hdue : refreshDue i.currentMillis s = true ↔
      (300 ≤ (i.currentMillis + 2 ^ 32 - s.lastLcdUpdate) % 2 ^ 32 ∨
        s.displayedMode ≠ s.systemMode) := by
    unfold refreshDue
    rw [hsub]
    simp [LCD_INTERVAL]
  have hreach := loop_shows_mode fp i (run fp (boot e) es)
    (run_displayInv fp (boot e) es (boot_displayInv e) (boot_mode_range e))
    (run_mode_range fp (boot e) es (boot_mode_range e))
  refine ⟨hreach.1, hreach.2.1, ?_, ?_⟩
  · intro h
    have hd := hdue.2 h
    exact ⟨((loop_display_fields fp i s).1 hd).1, ((loop_display_fields fp i s).1 hd).2,
      loop_lcd fp i s hd⟩
  · intro h
    exact (loop_display_fields fp i s).2 (fun hd => h (hdue.1 hd))

/-- C15 on the first iteration after boot with mode 1 stored, and on a state in
which no refresh is due. -/
theorem display_tracks_mode_witness :
    visible (loop sampleOps ⟨100, 0, 0, 0⟩ (run sampleOps (boot ⟨1, 0⟩) [])).lcd.line0
      = modeShown (loop sampleOps ⟨100, 0, 0, 0⟩ (run sampleOps (boot ⟨1, 0⟩) [])).systemMode ∧
    (loop sampleOps ⟨100, 0, 0, 0⟩ { boot ⟨1, 0⟩ with displayedMode := 1 }).lcd
      = (boot ⟨1, 0⟩).lcd := by
  have h := display_tracks_mode sampleOps ⟨1, 0⟩ [] ⟨100, 0, 0, 0⟩
    { boot ⟨1, 0⟩ with displayedMode := 1 } (by decide) (by decide)
  exact ⟨h.2.1, (h.2.2.2 (by decide)).2.2⟩

end Cursova
